import Mathlib

/-!
Verification development of the macro-studio repository: a shallow embedding of
its action normalizer/sanitizer, playback scheduler, import validator, and
AI-generation gateway, together with proofs of the specified properties.

Conventions of the embedding:
* Loosely-typed JavaScript objects are modelled by structures whose fields are
  `Option`-typed (`none` = the field is absent / `undefined`).
* JavaScript truthiness coercions (`x || d`, `x ? e : 0`) are modelled by the
  `jsOrString` / `jsOrInt` / `jsOrIntD` / `jsOrBool` helpers; the empty string
  and the number 0 are falsy, exactly as in JavaScript.
* The `Math.random()`-based `generateId` is modelled by passing the stream of
  its successive results to the sanitizer as a parameter `gen : Nat → String`
  (the n-th call returns `gen n`): the source guarantees nothing about this
  stream — `Math.random().toString(36).substr(2, 9)` can return the same string
  twice and returns the empty string when `Math.random()` yields 0 — so
  uniqueness or non-emptiness of ids is proved only under explicit hypotheses
  on `gen`. `mkId` is one concrete supply, used to instantiate theorems whose
  truth does not depend on which supply the sanitizer draws from.
* Machine numbers are modelled as `Int` (durations, coordinates, scroll
  amounts); no arithmetic in the modelled code can overflow a double's exact
  integer range in the scenarios covered by the claims.
-/

namespace MacroStudio

/-- Model of the JavaScript expression `v || d` for string-valued fields:
an absent field or the empty string is falsy and yields the default. -/
def jsOrString (v : Option String) (d : String) : String :=
  match v with
  | none => d
  | some s => if s = "" then d else s

/-- Model of the JavaScript coercions `v ? parseInt(String(v), 10) : 0` and
`v || 0` for integer-valued fields: an absent field yields 0, the number 0 is
falsy and also yields 0, so the result is simply `getD 0`. -/
def jsOrInt (v : Option Int) : Int :=
  v.getD 0

/-- Model of the JavaScript expression `x || d` on an already-coerced integer:
0 is falsy and yields the default, every other integer (including negative
ones, which are truthy in JavaScript) is returned unchanged. -/
def jsOrIntD (x : Int) (d : Int) : Int :=
  if x = 0 then d else x

/-- Model of the JavaScript expression `v || false` for boolean fields. -/
def jsOrBool (v : Option Bool) : Bool :=
  v.getD false

/-- Model of JavaScript `s.toLowerCase()`: lower-case the string character by
character. (Semantically `String.toLower`; stated over the character list so
that it reduces inside the kernel.) -/
def jsToLower (s : String) : String :=
  String.mk (s.data.map Char.toLower)

/-- Model of JavaScript `s.toUpperCase()`: upper-case the string character by
character. (Semantically `String.toUpper`; stated over the character list so
that it reduces inside the kernel.) -/
def jsToUpper (s : String) : String :=
  String.mk (s.data.map Char.toUpper)

/-- One concrete id supply: the n-th id is a non-empty string and distinct
indices give distinct ids (`mkId_inj`, `mkId_ne_empty`). This is NOT claimed
to be a faithful model of `generateId` — the source's
`Math.random().toString(36).substr(2, 9)` guarantees neither property — it is
only used to instantiate theorems whose statements hold for every supply. -/
def mkId (n : Nat) : String :=
  String.mk (List.replicate (n + 1) 'x')

/-- A loosely-shaped candidate action record, as handed to the sanitizer
(`sanitize` in the gateway source): every field may be absent. -/
structure Candidate where
  id : Option String := none
  type : Option String := none
  actionState : Option String := none
  button : Option String := none
  duration : Option Int := none
  x : Option Int := none
  y : Option Int := none
  absolute : Option Bool := none
  key : Option String := none
  scrollAmount : Option Int := none
deriving Repr, DecidableEq

/-- A canonical `MacroAction` as produced by the sanitizer and consumed by the
visualizer. Fields other than `id` are `Option`-typed because the synthetic
Delay records pushed by the sanitizer populate only `id`, `type` and
`duration`. -/
structure MacroAction where
  id : String
  type : Option String := none
  actionState : Option String := none
  button : Option String := none
  duration : Option Int := none
  x : Option Int := none
  y : Option Int := none
  absolute : Option Bool := none
  key : Option String := none
  scrollAmount : Option Int := none
deriving Repr, DecidableEq

/-- One iteration of the sanitizer's `for (const a of list)` loop (gateway
source, `sanitize`): given the stream `gen` of `generateId` results (the n-th
call of `Math.random().toString(36).substr(2, 9)` returns `gen n`), the
candidate record and the index of the next `generateId` call, returns the
emitted canonical actions and the advanced call index. Mirrors the source
exactly: the field coercions, Rule A (explicit down/up passthrough with the
synthetic-Delay safety net for a `down` carrying a positive duration), Rule B
(lazy hold expansion for CLICK/KEY with duration strictly above 10), and
Rule C (default atomic case, with `duration || 100` applied only for the
DELAY type). -/
def processRecordWith (gen : Nat → String) (a : Candidate) (n : Nat) :
    List MacroAction × Nat :=
  let type := a.type
  let button := jsToLower (jsOrString a.button "left")
  let key := jsToLower (jsOrString a.key "")
  let duration := jsOrInt a.duration
  let scrollAmount := jsOrInt a.scrollAmount
  let actionState := jsToLower (jsOrString a.actionState "click")
  if actionState = "down" ∨ actionState = "up" then
    let first : MacroAction :=
      { id := gen n, type := type, button := some button, key := some key,
        actionState := some actionState, duration := some 0,
        x := some (jsOrInt a.x), y := some (jsOrInt a.y),
        absolute := some (jsOrBool a.absolute), scrollAmount := some scrollAmount }
    if duration > 0 ∧ actionState = "down" then
      ([first,
        { id := gen (n + 1), type := some "DELAY", duration := some duration }],
       n + 2)
    else
      ([first], n + 1)
  else if (type = some "CLICK" ∨ type = some "KEY") ∧ duration > 10 then
    ([{ id := gen n, type := type, button := some button, key := some key,
        actionState := some "down", duration := some 0,
        x := some 0, y := some 0, absolute := some false, scrollAmount := some 0 },
      { id := gen (n + 1), type := some "DELAY", duration := some duration },
      { id := gen (n + 2), type := type, button := some button, key := some key,
        actionState := some "up", duration := some 0,
        x := some 0, y := some 0, absolute := some false, scrollAmount := some 0 }],
     n + 3)
  else
    ([{ id := gen n, type := type,
        duration := some (if type = some "DELAY" then jsOrIntD duration 100 else 0),
        x := some (jsOrInt a.x), y := some (jsOrInt a.y), button := some button,
        absolute := some (jsOrBool a.absolute), key := some key,
        actionState := some "click", scrollAmount := some scrollAmount }],
     n + 1)

/-- The sanitizer's loop over the whole candidate list (gateway source,
`sanitize`), threading the `generateId` call index left to right through the
result stream `gen`. -/
def sanitizeWith (gen : Nat → String) : List Candidate → Nat → List MacroAction × Nat
  | [], n => ([], n)
  | c :: cs, n =>
    let p := processRecordWith gen c n
    let r := sanitizeWith gen cs p.2
    (p.1 ++ r.1, r.2)

/-- The per-record sanitizer step instantiated at the concrete supply `mkId`.
The per-record claims are stated against this instance; which supply is used
is irrelevant to them (the supply only fills the id fields). -/
def processRecord : Candidate → Nat → List MacroAction × Nat :=
  processRecordWith mkId

/-- The sanitizer loop instantiated at the concrete supply `mkId`. -/
def sanitize : List Candidate → Nat → List MacroAction × Nat :=
  sanitizeWith mkId

/-- The sanitizer's top-level array guard (source: `if (!Array.isArray(list))
return []`): a non-array input (`none`) yields the empty output. -/
def sanitizeGuarded (o : Option (List Candidate)) (n : Nat) : List MacroAction × Nat :=
  match o with
  | none => ([], n)
  | some l => sanitize l n

/-- The visualizer's `normalizeKey` (visualizer source): canonicalize a raw key
string to the key-cap label used for set-membership checks. A falsy (empty)
input yields the empty string; otherwise the input is upper-cased and the
special raw names are mapped to their key-cap labels. -/
def normalizeKey (k : String) : String :=
  if k = "" then ""
  else
    let u := jsToUpper k
    if u = " " then "SPACE"
    else if u = "CONTROL" then "CTRL"
    else if u = "RETURN" then "ENTER"
    else if u = "ESCAPE" then "ESC"
    else if u = "DELETE" then "DEL"
    else if u = "INSERT" then "INS"
    else if u = "ARROWUP" then "UP"
    else if u = "ARROWDOWN" then "DOWN"
    else if u = "ARROWLEFT" then "LEFT"
    else if u = "ARROWRIGHT" then "RIGHT"
    else if u = "PAGEUP" then "PGUP"
    else if u = "PAGEDOWN" then "PGDN"
    else u

/-- The per-step pacing computation of the visualizer's `runStep` (visualizer
source): `let stepDuration = 500; if (action.type === ActionType.DELAY)
stepDuration = Math.max(100, (action.duration || 0))`. -/
def stepDuration (a : MacroAction) : Int :=
  if a.type = some "DELAY" then max 100 (jsOrInt a.duration) else 500

/-- The mutable visual state of the `MacroVisualizer` component: the cursor,
the is-playing flag, the active key-cap labels, the active mouse buttons, the
transient scroll indicator, and the handles of all pending timers. -/
structure VizState where
  currentIndex : Int
  isPlaying : Bool
  activeKeys : List String
  activeMouseBtns : List String
  scrollState : Option String
  pendingTimers : List Nat
deriving Repr, DecidableEq

/-- The visualizer's `stop()` (visualizer source): clear the is-playing flag,
cancel every pending timer, and clear the scroll indicator. Nothing else is
touched. -/
def stop (s : VizState) : VizState :=
  { s with isPlaying := false, pendingTimers := [], scrollState := none }

/-- The visualizer's `reset()` (visualizer source): `stop()`, then clear the
cursor and both active sets. -/
def reset (s : VizState) : VizState :=
  { stop s with
    currentIndex := -1, activeKeys := [], activeMouseBtns := [], scrollState := none }

/-- A stored macro document (the `Macro` interface of the type declarations). -/
structure MacroDoc where
  id : String
  name : String
  triggerKey : String
  loopMode : String
  actions : List MacroAction
  releaseActions : List MacroAction
deriving Repr, DecidableEq

/-- The observable outcome of the external generation request inside
`generateMacroFromPrompt`: the awaited call throws (transport error), or it
returns a response whose `text` is falsy, or a text `JSON.parse` rejects, or a
parsed object with its two optional candidate arrays. The HTTP exchange itself
is external; only its outcome reaches the modelled code. -/
inductive SvcResult where
  | transportError
  | emptyText
  | parseFailure
  | parsed (mainSequence releaseSequence : Option (List Candidate))
deriving Repr, DecidableEq

/-- The gateway's `generateMacroFromPrompt` (gateway source): a falsy API key
throws before any request; a transport error is re-thrown; a falsy response
text or a JSON parse failure yields an empty successful result; a parsed
result has both sequences sanitized (sharing one id supply). -/
def generateMacroFromPrompt (apiKey : Option String) (svc : SvcResult) (n : Nat) :
    Except String (List MacroAction × List MacroAction) :=
  if apiKey = none ∨ apiKey = some "" then Except.error "API Key is missing."
  else
    match svc with
    | SvcResult.transportError => Except.error "Gemini Generation Error"
    | SvcResult.emptyText => Except.ok ([], [])
    | SvcResult.parseFailure => Except.ok ([], [])
    | SvcResult.parsed ms rs =>
      let main := sanitizeGuarded ms n
      let rel := sanitizeGuarded rs main.2
      Except.ok (main.1, rel.1)

/-- The slice of the App component's state touched by `handleAiGenerate`. -/
structure AppState where
  macros : List MacroDoc
  selectedMacroId : Option String
  aiError : Option String
  showAiModal : Bool
  editView : String
deriving Repr, DecidableEq

/-- The App's `updateMacro` specialized to the field updates performed by
`handleAiGenerate` (App source): map over the collection and replace the two
action lists of every macro whose id matches. -/
def updateMacroActions (ms : List MacroDoc) (targetId : String)
    (newActions newReleaseActions : List MacroAction) : List MacroDoc :=
  ms.map fun m =>
    if m.id = targetId then
      { m with actions := newActions, releaseActions := newReleaseActions }
    else m

/-- The App's `handleAiGenerate` (App source): a falsy API key only sets the
inline error; with no selected macro nothing happens; a thrown generation error
sets the inline error and leaves the store alone; on success the generated
actions are appended to the selected macro, the modal closes, and the edit view
switches to the release tab exactly when only release actions were produced. -/
def handleAiGenerate (apiKey : Option String) (svc : SvcResult) (n : Nat)
    (st : AppState) : AppState :=
  if apiKey = none ∨ apiKey = some "" then
    { st with aiError := some "未配置 API Key，请检查环境变量。" }
  else
    match st.selectedMacroId with
    | none => st
    | some selId =>
      match generateMacroFromPrompt apiKey svc n with
      | Except.error _ => { st with aiError := some "生成失败，模型可能过载。请稍后重试。" }
      | Except.ok (mainActions, releaseActions) =>
        match st.macros.find? (fun m => m.id = selId) with
        | none => { st with aiError := none }
        | some m =>
          { st with
            macros := updateMacroActions st.macros selId (m.actions ++ mainActions)
                        (m.releaseActions ++ releaseActions),
            aiError := none,
            showAiModal := false,
            editView :=
              if mainActions.length = 0 ∧ releaseActions.length > 0 then "release"
              else "main" }

/-- One loosely-shaped element of an imported JSON document, restricted to the
fields `processImport` inspects; `none` models a field that is absent (or, for
the two list fields, present but not an array, which `Array.isArray` treats
identically). The untouched remainder of the object is carried by the
validated output verbatim and is not modelled. -/
structure ImportEntry where
  id : Option String := none
  name : Option String := none
  triggerKey : Option String := none
  loopMode : Option String := none
  actions : Option (List MacroAction) := none
  releaseActions : Option (List MacroAction) := none
deriving Repr, DecidableEq

/-- The observable shape of the text handed to `processImport`: blank (falsy or
whitespace-only), not valid JSON, valid JSON whose root is not an array, or an
array of loose elements. -/
inductive ImportInput where
  | blank
  | invalidJson
  | nonArrayRoot
  | arrayRoot (elems : List ImportEntry)
deriving Repr, DecidableEq

/-- The per-element check of `processImport` (App source): `!m.id || !m.name ||
!m.triggerKey || !Array.isArray(m.actions)` — a missing or empty id, name or
triggerKey, or a missing/non-array actions field. -/
def entryInvalid (e : ImportEntry) : Prop :=
  e.id = none ∨ e.id = some "" ∨ e.name = none ∨ e.name = some "" ∨
    e.triggerKey = none ∨ e.triggerKey = some "" ∨ e.actions = none

instance (e : ImportEntry) : Decidable (entryInvalid e) := by
  unfold entryInvalid
  infer_instance

/-- The body of the validating `map` in `processImport` (App source): an
invalid element throws (modelled as `none`); a valid element is passed through
with `releaseActions` replaced by itself when it is an array and by the empty
array otherwise. -/
def validateEntry (e : ImportEntry) : Option ImportEntry :=
  if entryInvalid e then none
  else some { e with releaseActions := some (e.releaseActions.getD []) }

/-- The validating `map` of `processImport`: the first throwing element aborts
the whole map (modelled by `Option`), so nothing is kept from a half-
validated list. -/
def validateAll : List ImportEntry → Option (List ImportEntry)
  | [] => some []
  | e :: es =>
    match validateEntry e with
    | none => none
    | some v =>
      match validateAll es with
      | none => none
      | some vs => some (v :: vs)

/-- The App's `processImport` (App source), returning the resulting store
together with the alert message shown on failure (`none` on success): blank
input, invalid JSON and a non-array root abort with the store untouched; an
array root either fully validates and replaces the store, or aborts with the
store untouched. -/
def processImport (input : ImportInput) (store : List ImportEntry) :
    List ImportEntry × Option String :=
  match input with
  | ImportInput.blank => (store, some "内容为空！")
  | ImportInput.invalidJson => (store, some "导入失败：内容不是有效的 JSON 格式。")
  | ImportInput.nonArrayRoot => (store, some "JSON 格式错误：根节点必须是数组 (Macro[])")
  | ImportInput.arrayRoot elems =>
    match validateAll elems with
    | none => (store, some "导入数据校验失败")
    | some validated => (validated, none)

/-- The block of ids drawn from the `generateId` result stream:
`idsSupplied gen n k` is `[gen n, gen (n+1), ..., gen (n+k-1)]`. -/
def idsSupplied (gen : Nat → String) : Nat → Nat → List String
  | _, 0 => []
  | n, k + 1 => gen n :: idsSupplied gen (n + 1) k

theorem mkId_inj {m n : Nat} (h : mkId m = mkId n) : m = n := by
  have h2 : List.replicate (m + 1) 'x' = List.replicate (n + 1) 'x' :=
    congrArg String.data h
  have h3 := congrArg List.length h2
  simp only [List.length_replicate] at h3
  omega

theorem mkId_ne_empty (n : Nat) : mkId n ≠ "" := by
  intro h
  have h2 := congrArg String.data h
  simp [mkId] at h2

theorem idsSupplied_append (gen : Nat → String) (a b n : Nat) :
    idsSupplied gen n (a + b) = idsSupplied gen n a ++ idsSupplied gen (n + a) b := by
  induction a generalizing n with
  | zero => simp [idsSupplied]
  | succ a ih =>
    have h1 : a + 1 + b = (a + b) + 1 := by omega
    rw [h1]
    show gen n :: idsSupplied gen (n + 1) (a + b)
      = (gen n :: idsSupplied gen (n + 1) a) ++ idsSupplied gen (n + (a + 1)) b
    rw [List.cons_append, ih (n + 1)]
    have h2 : n + 1 + a = n + (a + 1) := by omega
    rw [h2]

theorem mem_idsSupplied {gen : Nat → String} {s : String} {n k : Nat} :
    s ∈ idsSupplied gen n k ↔ ∃ j, n ≤ j ∧ j < n + k ∧ s = gen j := by
  induction k generalizing n with
  | zero =>
    simp only [idsSupplied, List.not_mem_nil, false_iff]
    rintro ⟨j, h1, h2, h3⟩
    omega
  | succ k ih =>
    simp only [idsSupplied, List.mem_cons, ih]
    constructor
    · rintro (h | ⟨j, hj1, hj2, hj3⟩)
      · exact ⟨n, le_refl n, by omega, h⟩
      · exact ⟨j, by omega, by omega, hj3⟩
    · rintro ⟨j, hj1, hj2, hj3⟩
      by_cases hjn : j = n
      · subst hjn
        exact Or.inl hj3
      · exact Or.inr ⟨j, by omega, by omega, hj3⟩

theorem idsSupplied_nodup (gen : Nat → String) (hinj : Function.Injective gen)
    (n k : Nat) : (idsSupplied gen n k).Nodup := by
  induction k generalizing n with
  | zero => simp [idsSupplied]
  | succ k ih =>
    simp only [idsSupplied, List.nodup_cons]
    refine ⟨?_, ih (n + 1)⟩
    rw [mem_idsSupplied]
    rintro ⟨j, hj1, hj2, hj3⟩
    have := hinj hj3
    omega

theorem processRecordWith_ids (gen : Nat → String) (a : Candidate) (n : Nat) :
    (processRecordWith gen a n).1.map MacroAction.id
      = idsSupplied gen n (processRecordWith gen a n).1.length := by
  simp only [processRecordWith]
  split_ifs <;> simp [idsSupplied, Nat.add_assoc]

theorem processRecordWith_length_pos (gen : Nat → String) (a : Candidate) (n : Nat) :
    1 ≤ (processRecordWith gen a n).1.length := by
  simp only [processRecordWith]
  split_ifs <;> simp

theorem processRecordWith_counter (gen : Nat → String) (a : Candidate) (n : Nat) :
    (processRecordWith gen a n).2 = n + (processRecordWith gen a n).1.length := by
  simp only [processRecordWith]
  split_ifs <;> simp

theorem sanitizeWith_counter_ids (gen : Nat → String) (cs : List Candidate) (n : Nat) :
    (sanitizeWith gen cs n).2 = n + (sanitizeWith gen cs n).1.length ∧
      (sanitizeWith gen cs n).1.map MacroAction.id
        = idsSupplied gen n (sanitizeWith gen cs n).1.length := by
  induction cs generalizing n with
  | nil => simp [sanitizeWith, idsSupplied]
  | cons c cs ih =>
    obtain ⟨ih1, ih2⟩ := ih (processRecordWith gen c n).2
    have hc := processRecordWith_counter gen c n
    constructor
    · simp only [sanitizeWith, List.length_append]
      omega
    · simp only [sanitizeWith, List.map_append, List.length_append, idsSupplied_append,
        processRecordWith_ids gen c n, ih2]
      rw [hc]

theorem sanitizeWith_length_ge (gen : Nat → String) (cs : List Candidate) (n : Nat) :
    cs.length ≤ (sanitizeWith gen cs n).1.length := by
  induction cs generalizing n with
  | nil => simp [sanitizeWith]
  | cons c cs ih =>
    simp only [sanitizeWith, List.length_append, List.length_cons]
    have h1 := processRecordWith_length_pos gen c n
    have h2 := ih (processRecordWith gen c n).2
    omega

theorem processRecordWith_id_irrelevant (gen : Nat → String) (c : Candidate)
    (v : Option String) (n : Nat) :
    processRecordWith gen { c with id := v } n = processRecordWith gen c n := rfl

theorem sanitizeWith_id_irrelevant (gen : Nat → String) (cs : List Candidate)
    (g : Candidate → Option String) (n : Nat) :
    sanitizeWith gen (cs.map fun c => { c with id := g c }) n = sanitizeWith gen cs n := by
  induction cs generalizing n with
  | nil => rfl
  | cons c cs ih =>
    simp only [List.map_cons, sanitizeWith, processRecordWith_id_irrelevant, ih]

theorem updateMacroActions_self (ms : List MacroDoc) (selId : String) (m : MacroDoc)
    (hfind : ms.find? (fun x => x.id = selId) = some m)
    (hnodup : (ms.map MacroDoc.id).Nodup) :
    updateMacroActions ms selId m.actions m.releaseActions = ms := by
  induction ms with
  | nil => simp at hfind
  | cons x xs ih =>
    rw [List.map_cons, List.nodup_cons] at hnodup
    obtain ⟨hx, hxs⟩ := hnodup
    by_cases hxid : x.id = selId
    · rw [List.find?_cons_of_pos _ (by simp [hxid])] at hfind
      injection hfind with hm
      rw [← hm]
      simp only [updateMacroActions, List.map_cons, if_pos hxid]
      have hhead : ({ x with actions := x.actions, releaseActions := x.releaseActions }
          : MacroDoc) = x := rfl
      rw [hhead]
      have htail : xs.map (fun y => if y.id = selId then
          { y with actions := x.actions, releaseActions := x.releaseActions } else y) = xs := by
        have h2 : ∀ y ∈ xs, (if y.id = selId then
            { y with actions := x.actions, releaseActions := x.releaseActions } else y) = y := by
          intro y hy
          rw [if_neg]
          intro hyid
          apply hx
          rw [hxid, ← hyid]
          exact List.mem_map_of_mem MacroDoc.id hy
        rw [List.map_congr_left h2]
        simp
      rw [htail]
    · rw [List.find?_cons_of_neg _ (by simp [hxid])] at hfind
      have htail := ih hfind hxs
      simp only [updateMacroActions, List.map_cons, if_neg hxid] at htail ⊢
      rw [htail]

theorem validateAll_none_of_invalid {es : List ImportEntry} {e : ImportEntry}
    (he : e ∈ es) (hbad : entryInvalid e) : validateAll es = none := by
  induction es with
  | nil => simp at he
  | cons x xs ih =>
    rcases List.mem_cons.mp he with h | h
    · subst h
      simp [validateAll, validateEntry, hbad]
    · simp only [validateAll]
      cases hx : validateEntry x with
      | none => rfl
      | some v => rw [ih h]

theorem coercedState_click {c : Candidate}
    (h : c.actionState = none ∨ c.actionState = some "click") :
    jsToLower (jsOrString c.actionState "click") = "click" := by
  rcases h with h | h <;> rw [h] <;> decide

theorem validateAll_all_valid {es : List ImportEntry}
    (h : ∀ e ∈ es, ¬ entryInvalid e) :
    validateAll es
      = some (es.map fun e => { e with releaseActions := some (e.releaseActions.getD []) }) := by
  induction es with
  | nil => rfl
  | cons x xs ih =>
    have hx := h x (List.mem_cons_self x xs)
    simp only [validateAll, validateEntry, if_neg hx, List.map_cons,
      ih (fun e he => h e (List.mem_cons_of_mem x he))]

/-- Claim C1: for a candidate of kind CLICK or KEY whose actionState is absent
or click and whose duration exceeds 10, the sanitizer emits exactly three
canonical actions in order — same kind with state down and duration 0, a Delay
carrying the candidate's duration, same kind with state up and duration 0 —
while at the boundary duration of exactly 10 no expansion happens and the
record stays a single atomic action with actionState click. -/
theorem sanitize_lazy_hold_expansion (c : Candidate) (n : Nat) (d : Int)
    (htype : c.type = some "CLICK" ∨ c.type = some "KEY")
    (hstate : c.actionState = none ∨ c.actionState = some "click")
    (hdur : c.duration = some d) :
    (10 < d →
      (processRecord c n).1 =
        [{ id := mkId n, type := c.type,
           button := some (jsToLower (jsOrString c.button "left")),
           key := some (jsToLower (jsOrString c.key "")), actionState := some "down",
           duration := some 0, x := some 0, y := some 0, absolute := some false,
           scrollAmount := some 0 },
         { id := mkId (n + 1), type := some "DELAY", duration := some d },
         { id := mkId (n + 2), type := c.type,
           button := some (jsToLower (jsOrString c.button "left")),
           key := some (jsToLower (jsOrString c.key "")), actionState := some "up",
           duration := some 0, x := some 0, y := some 0, absolute := some false,
           scrollAmount := some 0 }])
    ∧ (d = 10 →
      (processRecord c n).1 =
        [{ id := mkId n, type := c.type, actionState := some "click",
           button := some (jsToLower (jsOrString c.button "left")),
           duration := some 0,
           x := some (jsOrInt c.x), y := some (jsOrInt c.y),
           absolute := some (jsOrBool c.absolute),
           key := some (jsToLower (jsOrString c.key "")),
           scrollAmount := some (jsOrInt c.scrollAmount) }]) := by
  have hclick := coercedState_click hstate
  have hd0 : jsOrInt c.duration = d := by
    rw [hdur]
    rfl
  constructor
  · intro h10
    simp only [processRecord, processRecordWith, hclick, hd0]
    rw [if_neg (by decide), if_pos ⟨htype, h10⟩]
  · intro h10
    subst h10
    simp only [processRecord, processRecordWith, hclick, hd0]
    rw [if_neg (by decide), if_neg (fun h => absurd h.2 (by decide))]
    rcases htype with ht | ht <;> rw [ht] <;> rw [if_neg (by decide)]

/-- Claim C1 witness: the concrete candidate record of kind KEY with duration
2000 expands to exactly the down / Delay 2000 / up triple. -/
theorem sanitize_lazy_hold_expansion_witness :
    (processRecord ({ type := some "KEY", duration := some 2000 } : Candidate) 0).1 =
      [{ id := mkId 0, type := some "KEY", button := some "left", key := some "",
         actionState := some "down", duration := some 0, x := some 0, y := some 0,
         absolute := some false, scrollAmount := some 0 },
       { id := mkId 1, type := some "DELAY", duration := some 2000 },
       { id := mkId 2, type := some "KEY", button := some "left", key := some "",
         actionState := some "up", duration := some 0, x := some 0, y := some 0,
         absolute := some false, scrollAmount := some 0 }] := by
  exact (sanitize_lazy_hold_expansion { type := some "KEY", duration := some 2000 } 0 2000
    (Or.inr rfl) (Or.inl rfl) rfl).1 (by decide)

/-- Claim C2: a candidate with explicit actionState up yields exactly one
canonical action with state up and duration 0; a candidate with explicit
actionState down yields that single action when its coerced duration is not
positive, and exactly one additional synthetic Delay (and never a synthetic
up) when the duration is positive. -/
theorem sanitize_explicit_state_passthrough (c : Candidate) (n : Nat) :
    (c.actionState = some "up" →
      (processRecord c n).1 =
        [{ id := mkId n, type := c.type,
           button := some (jsToLower (jsOrString c.button "left")),
           key := some (jsToLower (jsOrString c.key "")), actionState := some "up",
           duration := some 0, x := some (jsOrInt c.x), y := some (jsOrInt c.y),
           absolute := some (jsOrBool c.absolute),
           scrollAmount := some (jsOrInt c.scrollAmount) }])
    ∧ (c.actionState = some "down" → jsOrInt c.duration ≤ 0 →
      (processRecord c n).1 =
        [{ id := mkId n, type := c.type,
           button := some (jsToLower (jsOrString c.button "left")),
           key := some (jsToLower (jsOrString c.key "")), actionState := some "down",
           duration := some 0, x := some (jsOrInt c.x), y := some (jsOrInt c.y),
           absolute := some (jsOrBool c.absolute),
           scrollAmount := some (jsOrInt c.scrollAmount) }])
    ∧ (c.actionState = some "down" → 0 < jsOrInt c.duration →
      (processRecord c n).1 =
        [{ id := mkId n, type := c.type,
           button := some (jsToLower (jsOrString c.button "left")),
           key := some (jsToLower (jsOrString c.key "")), actionState := some "down",
           duration := some 0, x := some (jsOrInt c.x), y := some (jsOrInt c.y),
           absolute := some (jsOrBool c.absolute),
           scrollAmount := some (jsOrInt c.scrollAmount) },
         { id := mkId (n + 1), type := some "DELAY",
           duration := some (jsOrInt c.duration) }]) := by
  refine ⟨?_, ?_, ?_⟩
  · intro h
    have hup : jsToLower (jsOrString c.actionState "click") = "up" := by
      rw [h]
      decide
    simp only [processRecord, processRecordWith, hup]
    rw [if_pos (by decide), if_neg (fun hc => absurd hc.2 (by decide))]
  · intro h hle
    have hdn : jsToLower (jsOrString c.actionState "click") = "down" := by
      rw [h]
      decide
    simp only [processRecord, processRecordWith, hdn]
    rw [if_pos (by decide), if_neg (fun hc => absurd hc.1 (not_lt.mpr hle))]
  · intro h hpos
    have hdn : jsToLower (jsOrString c.actionState "click") = "down" := by
      rw [h]
      decide
    simp only [processRecord, processRecordWith, hdn]
    rw [if_pos (by decide), if_pos ⟨hpos, by decide⟩]

/-- Claim C2 witness: the concrete record of kind CLICK with actionState down
and duration 500 normalizes to exactly two actions (down with duration 0, then
Delay 500) and never a synthetic up. -/
theorem sanitize_explicit_state_passthrough_witness :
    (processRecord
        ({ type := some "CLICK", actionState := some "down", duration := some 500 }
          : Candidate) 0).1.length = 2 := by
  rw [(sanitize_explicit_state_passthrough
    { type := some "CLICK", actionState := some "down", duration := some 500 } 0).2.2
    rfl (by decide)]
  rfl

/-- Claim C3 counterexample: the candidate record of kind DELAY with the
non-positive duration -5 reaches the default atomic case but is emitted with
duration -5, not with the claimed default of 100 (in JavaScript a negative
number is truthy, so `duration || 100` keeps it). -/
theorem sanitize_negative_delay_counterexample :
    (sanitize [{ type := some "DELAY", duration := some (-5) }] 0).1.map
        MacroAction.duration = [some (-5)]
    ∧ some (-5 : Int) ≠ some (100 : Int) := by
  constructor
  · decide
  · decide

/-- Claim C3 (amended): in the default atomic case the sanitizer emits exactly
one canonical action with actionState forced to click whose duration equals
the candidate's duration when the kind is DELAY — defaulting to 100 only when
the duration is missing or zero, while a non-zero (including negative)
duration is passed through verbatim — and equals 0 for every other kind. -/
theorem sanitize_atomic_default (c : Candidate) (n : Nat)
    (hstate : jsToLower (jsOrString c.actionState "click") ≠ "down" ∧
      jsToLower (jsOrString c.actionState "click") ≠ "up")
    (hlazy : ¬ ((c.type = some "CLICK" ∨ c.type = some "KEY") ∧ 10 < jsOrInt c.duration)) :
    (processRecord c n).1.length = 1 ∧
      ∀ a ∈ (processRecord c n).1,
        a.actionState = some "click" ∧ a.type = c.type ∧
          (c.type = some "DELAY" →
            ((c.duration = none ∨ c.duration = some 0) → a.duration = some 100) ∧
            (∀ d : Int, c.duration = some d → d ≠ 0 → a.duration = some d)) ∧
          (c.type ≠ some "DELAY" → a.duration = some 0) := by
  simp only [processRecord, processRecordWith, if_neg (not_or.mpr hstate), if_neg hlazy]
  refine ⟨rfl, ?_⟩
  intro a ha
  rw [List.mem_singleton] at ha
  subst ha
  refine ⟨rfl, rfl, ?_, ?_⟩
  · intro hdel
    rw [hdel]
    rw [if_pos rfl]
    constructor
    · rintro (h0 | h0) <;> rw [h0] <;> rfl
    · intro d hd hd0
      rw [hd]
      simp only [jsOrInt, Option.getD_some, jsOrIntD, if_neg hd0]
  · intro hdel
    rw [if_neg hdel]

/-- Claim C3 (amended) witness: a DELAY candidate with no duration field is
emitted as a single atomic click-state action with the default duration 100. -/
theorem sanitize_atomic_default_witness :
    (processRecord ({ type := some "DELAY" } : Candidate) 0).1.length = 1 :=
  (sanitize_atomic_default { type := some "DELAY" } 0 (by decide) (by decide)).1

/-- Claim C10: the sanitizer copies the candidate's type field verbatim into
the emitted action without checking it against the closed kind set; in the
default atomic case a record with a missing or unrecognized type still yields
exactly one output action carrying that unchecked type value. -/
theorem sanitize_type_passthrough (c : Candidate) (n : Nat)
    (hstate : jsToLower (jsOrString c.actionState "click") ≠ "down" ∧
      jsToLower (jsOrString c.actionState "click") ≠ "up")
    (hlazy : ¬ ((c.type = some "CLICK" ∨ c.type = some "KEY") ∧ 10 < jsOrInt c.duration)) :
    (processRecord c n).1.length = 1 ∧
      ∀ a ∈ (processRecord c n).1, a.type = c.type := by
  simp only [processRecord, processRecordWith, if_neg (not_or.mpr hstate), if_neg hlazy]
  refine ⟨rfl, ?_⟩
  intro a ha
  rw [List.mem_singleton] at ha
  subst ha
  rfl

/-- Claim C10 witness: a candidate with no type field at all is still emitted
as exactly one action whose type is the same missing value. -/
theorem sanitize_type_passthrough_witness :
    (processRecord ({ type := none } : Candidate) 0).1.length = 1 ∧
      ∀ a ∈ (processRecord ({ type := none } : Candidate) 0).1, a.type = none :=
  sanitize_type_passthrough { type := none } 0 (by decide) (by decide)

/-- Claim C4: the playback scheduler's per-step wait is max(100, duration)
milliseconds when the action's kind is DELAY and exactly 500 milliseconds for
every other kind; in particular a DELAY with duration 50 waits 100. -/
theorem stepDuration_spec (a : MacroAction) :
    (∀ d : Int, a.type = some "DELAY" → a.duration = some d →
      stepDuration a = max 100 d)
    ∧ (a.type ≠ some "DELAY" → stepDuration a = 500)
    ∧ (a.type = some "DELAY" → a.duration = some 50 → stepDuration a = 100) := by
  refine ⟨?_, ?_, ?_⟩
  · intro d h1 h2
    rw [stepDuration, if_pos h1, h2]
    rfl
  · intro h
    rw [stepDuration, if_neg h]
  · intro h1 h2
    rw [stepDuration, if_pos h1, h2]
    decide

/-- Claim C4 witness: a concrete DELAY action with duration 50 waits 100
milliseconds, and a concrete KEY action waits 500. -/
theorem stepDuration_spec_witness :
    stepDuration { id := "a", type := some "DELAY", duration := some 50 } = 100
    ∧ stepDuration { id := "b", type := some "KEY" } = 500 :=
  ⟨(stepDuration_spec { id := "a", type := some "DELAY", duration := some 50 }).2.2 rfl rfl,
   (stepDuration_spec { id := "b", type := some "KEY" }).2.1 (by decide)⟩

/-- Claim C5 counterexample: on the result stream that `generateId` produces
when every `Math.random()` call returns 0 — `"0".toString(36).substr(2, 9)` is
the empty string — a concrete two-record input yields two output actions that
both carry the empty id: the ids are neither non-empty nor pairwise distinct,
refuting the claim (the source's `Math.random()`-based ids guarantee neither
property). -/
theorem sanitize_duplicate_empty_id_counterexample :
    ((sanitizeWith (fun _ => "") [{ type := some "KEY" }, { type := some "DELAY" }] 0).1.map
        MacroAction.id) = ["", ""]
    ∧ ¬ (((sanitizeWith (fun _ => "")
        [{ type := some "KEY" }, { type := some "DELAY" }] 0).1.map
          MacroAction.id).Nodup) := by
  constructor
  · decide
  · decide

/-- Claim C5 (amended): for every structurally-array input and every
`generateId` result stream, the sanitizer's output is at least as long as the
input (no record is silently dropped), every output id is freshly drawn from
the stream at or after the call's position and never taken from the input
(whose id fields are ignored entirely), and the output ids are pairwise
distinct and non-empty provided the stream's outputs are injective and
non-empty — a guarantee `Math.random().toString(36).substr(2, 9)` itself does
not give, since it can collide and can return the empty string. -/
theorem sanitizeWith_length_and_ids (gen : Nat → String) (cs : List Candidate)
    (n : Nat) :
    cs.length ≤ (sanitizeWith gen cs n).1.length
    ∧ (∀ a ∈ (sanitizeWith gen cs n).1, ∃ k, n ≤ k ∧ a.id = gen k)
    ∧ (∀ g : Candidate → Option String,
        sanitizeWith gen (cs.map fun c => { c with id := g c }) n = sanitizeWith gen cs n)
    ∧ (Function.Injective gen → (∀ k, gen k ≠ "") →
        ((sanitizeWith gen cs n).1.map MacroAction.id).Nodup
        ∧ ∀ a ∈ (sanitizeWith gen cs n).1, a.id ≠ "") := by
  obtain ⟨h1, h2⟩ := sanitizeWith_counter_ids gen cs n
  have hmem : ∀ a ∈ (sanitizeWith gen cs n).1, ∃ k, n ≤ k ∧ a.id = gen k := by
    intro a ha
    have hin : a.id ∈ (sanitizeWith gen cs n).1.map MacroAction.id :=
      List.mem_map_of_mem MacroAction.id ha
    rw [h2, mem_idsSupplied] at hin
    obtain ⟨k, hk1, hk2, hk3⟩ := hin
    exact ⟨k, hk1, hk3⟩
  refine ⟨sanitizeWith_length_ge gen cs n, hmem,
    fun g => sanitizeWith_id_irrelevant gen cs g n, ?_⟩
  intro hinj hne
  constructor
  · rw [h2]
    exact idsSupplied_nodup gen hinj n (sanitizeWith gen cs n).1.length
  · intro a ha
    obtain ⟨k, hk1, hk2⟩ := hmem a ha
    rw [hk2]
    exact hne k

/-- Claim C5 (amended) witness: on a concrete two-record list with the
injective non-empty supply `mkId`, the output is at least as long as the input
and the output ids are pairwise distinct. -/
theorem sanitizeWith_length_and_ids_witness :
    ([({ type := some "KEY", duration := some 2000 } : Candidate),
      { type := some "DELAY", duration := some 40 }].length
        ≤ (sanitizeWith mkId [{ type := some "KEY", duration := some 2000 },
            { type := some "DELAY", duration := some 40 }] 0).1.length)
    ∧ ((sanitizeWith mkId [{ type := some "KEY", duration := some 2000 },
        { type := some "DELAY", duration := some 40 }] 0).1.map MacroAction.id).Nodup :=
  ⟨(sanitizeWith_length_and_ids mkId [{ type := some "KEY", duration := some 2000 },
      { type := some "DELAY", duration := some 40 }] 0).1,
   ((sanitizeWith_length_and_ids mkId [{ type := some "KEY", duration := some 2000 },
      { type := some "DELAY", duration := some 40 }] 0).2.2.2
      (fun _ _ h => mkId_inj h) mkId_ne_empty).1⟩

/-- Claim C8: calling the visualizer's stop in any state cancels all pending
timers and clears the scroll indicator immediately while leaving the
active-key set and the active-button set unchanged, whatever their contents,
and clears the is-playing flag. -/
theorem stop_spec (s : VizState) :
    (stop s).pendingTimers = [] ∧ (stop s).scrollState = none
    ∧ (stop s).activeKeys = s.activeKeys
    ∧ (stop s).activeMouseBtns = s.activeMouseBtns
    ∧ (stop s).isPlaying = false :=
  ⟨rfl, rfl, rfl, rfl, rfl⟩

/-- Claim C9: the scheduler's key-label canonicalization upper-cases its input
first (so it is case-insensitive), maps the special raw names space, control,
return, escape, delete, insert, the four arrow names and the two page names to
their key-cap labels, maps every other non-empty token to its upper-cased
form, and maps the empty string to the empty string. -/
theorem normalizeKey_spec :
    (∀ k : String, k ≠ "" →
      jsToUpper k ∉ ([" ", "CONTROL", "RETURN", "ESCAPE", "DELETE", "INSERT",
        "ARROWUP", "ARROWDOWN", "ARROWLEFT", "ARROWRIGHT", "PAGEUP", "PAGEDOWN"]
          : List String) →
      normalizeKey k = jsToUpper k)
    ∧ normalizeKey " " = "SPACE" ∧ normalizeKey "Control" = "CTRL"
    ∧ normalizeKey "return" = "ENTER" ∧ normalizeKey "Escape" = "ESC"
    ∧ normalizeKey "Delete" = "DEL" ∧ normalizeKey "insert" = "INS"
    ∧ normalizeKey "ArrowUp" = "UP" ∧ normalizeKey "arrowdown" = "DOWN"
    ∧ normalizeKey "ArrowLeft" = "LEFT" ∧ normalizeKey "ARROWRIGHT" = "RIGHT"
    ∧ normalizeKey "PageUp" = "PGUP" ∧ normalizeKey "pagedown" = "PGDN"
    ∧ normalizeKey "q" = "Q" ∧ normalizeKey "" = "" := by
  refine ⟨?_, by decide, by decide, by decide, by decide, by decide, by decide,
    by decide, by decide, by decide, by decide, by decide, by decide, by decide, by decide⟩
  intro k hk hmem
  simp only [List.mem_cons, List.not_mem_nil, or_false, not_or] at hmem
  obtain ⟨h1, h2, h3, h4, h5, h6, h7, h8, h9, h10, h11, h12⟩ := hmem
  simp only [normalizeKey, if_neg hk, if_neg h1, if_neg h2, if_neg h3, if_neg h4,
    if_neg h5, if_neg h6, if_neg h7, if_neg h8, if_neg h9, if_neg h10, if_neg h11,
    if_neg h12]

/-- Claim C9 witness: the unrecognized non-empty token w canonicalizes to its
upper-cased form. -/
theorem normalizeKey_spec_witness : normalizeKey "w" = jsToUpper "w" :=
  normalizeKey_spec.1 "w" (by decide) (by decide)

/-- A concrete application state with one selected macro, used to exercise the
AI-generation handler. -/
def demoDoc : MacroDoc :=
  { id := "m1", name := "demo", triggerKey := "f1", loopMode := "once",
    actions := [], releaseActions := [] }

def demoState : AppState :=
  { macros := [demoDoc], selectedMacroId := some "m1", aiError := none,
    showAiModal := true, editView := "main" }

/-- Claim C6 counterexample: when the service response fails to parse, the
handler finishes with no inline error and with the modal closed exactly as on
success — the parse failure is not surfaced to the user as an error (the
gateway swallows it and returns an empty successful result), contradicting the
claim; only the store-unmodified half holds. -/
theorem parse_failure_silent_counterexample :
    (handleAiGenerate (some "key") SvcResult.parseFailure 0 demoState).aiError = none
    ∧ (handleAiGenerate (some "key") SvcResult.parseFailure 0 demoState).showAiModal
        = false
    ∧ (handleAiGenerate (some "key") SvcResult.parseFailure 0 demoState).macros
        = demoState.macros := by
  refine ⟨?_, ?_, ?_⟩ <;> decide

/-- Claim C6 (amended): with a configured credential and a selected macro, a
transport failure of the generation request is surfaced as an inline error and
leaves the macro store unmodified, while a parse failure of the service
response silently leaves the store value-unchanged (the gateway returns an
empty successful generation, so empty lists are appended) with no error shown. -/
theorem handleAiGenerate_failure_spec (apiKey : Option String) (svc : SvcResult)
    (n : Nat) (st : AppState) (selId : String)
    (hkey : ¬ (apiKey = none ∨ apiKey = some ""))
    (hsel : st.selectedMacroId = some selId)
    (hnodup : (st.macros.map MacroDoc.id).Nodup) :
    (svc = SvcResult.transportError →
      (handleAiGenerate apiKey svc n st).macros = st.macros ∧
        (handleAiGenerate apiKey svc n st).aiError ≠ none)
    ∧ (svc = SvcResult.parseFailure →
      (handleAiGenerate apiKey svc n st).macros = st.macros ∧
        (handleAiGenerate apiKey svc n st).aiError = none) := by
  constructor
  · rintro rfl
    simp [handleAiGenerate, if_neg hkey, hsel, generateMacroFromPrompt]
  · rintro rfl
    simp only [handleAiGenerate, if_neg hkey, hsel, generateMacroFromPrompt]
    cases hfind : st.macros.find? (fun m => m.id = selId) with
    | none => simp [hfind]
    | some m =>
      simp only [hfind, List.append_nil]
      exact ⟨updateMacroActions_self st.macros selId m hfind hnodup, trivial⟩

/-- Claim C6 (amended) witness: on the concrete demo state a transport failure
leaves the store unmodified and surfaces an inline error. -/
theorem handleAiGenerate_failure_spec_witness :
    (handleAiGenerate (some "key") SvcResult.transportError 0 demoState).macros
        = demoState.macros
    ∧ (handleAiGenerate (some "key") SvcResult.transportError 0 demoState).aiError
        ≠ none :=
  (handleAiGenerate_failure_spec (some "key") SvcResult.transportError 0 demoState "m1"
    (by decide) rfl (by decide)).1 rfl

/-- Claim C7: import validation failure — blank input, invalid JSON, a
non-array root, or any array element lacking a non-empty id, name or
triggerKey or an array actions field — aborts with no mutation to the existing
collection, while a missing or malformed releaseActions field alone is not a
failure: a fully valid array replaces the store with releaseActions defaulted
to the empty array wherever it was absent or malformed. -/
theorem processImport_validation_spec (store : List ImportEntry) :
    (∀ input : ImportInput,
      input = ImportInput.blank ∨ input = ImportInput.invalidJson ∨
        input = ImportInput.nonArrayRoot →
      (processImport input store).1 = store)
    ∧ (∀ (elems : List ImportEntry) (e : ImportEntry), e ∈ elems → entryInvalid e →
      (processImport (ImportInput.arrayRoot elems) store).1 = store)
    ∧ (∀ elems : List ImportEntry, (∀ e ∈ elems, ¬ entryInvalid e) →
      processImport (ImportInput.arrayRoot elems) store
        = (elems.map fun e => { e with releaseActions := some (e.releaseActions.getD []) },
           none)) := by
  refine ⟨?_, ?_, ?_⟩
  · rintro input (rfl | rfl | rfl) <;> rfl
  · intro elems e he hbad
    simp [processImport, validateAll_none_of_invalid he hbad]
  · intro elems h
    simp [processImport, validateAll_all_valid h]

/-- Claim C7 witness: a concrete element missing its triggerKey makes the
whole import abort with the store untouched, and a concrete valid element with no
releaseActions field imports with releaseActions defaulted to the empty
array. -/
theorem processImport_validation_spec_witness :
    (processImport (ImportInput.arrayRoot
        [{ id := some "m1", name := some "demo" }])
        [{ id := some "keep", name := some "keep", triggerKey := some "f2",
           actions := some [] }]).1
      = [{ id := some "keep", name := some "keep", triggerKey := some "f2",
           actions := some [] }]
    ∧ processImport (ImportInput.arrayRoot
        [{ id := some "m1", name := some "demo", triggerKey := some "f1",
           actions := some [] }]) []
      = ([{ id := some "m1", name := some "demo", triggerKey := some "f1",
            actions := some [], releaseActions := some [] }], none) :=
  ⟨(processImport_validation_spec
      [{ id := some "keep", name := some "keep", triggerKey := some "f2",
         actions := some [] }]).2.1
      [{ id := some "m1", name := some "demo" }]
      { id := some "m1", name := some "demo" } (by decide) (by decide),
   (processImport_validation_spec []).2.2
      [{ id := some "m1", name := some "demo", triggerKey := some "f1",
         actions := some [] }] (by decide)⟩

end MacroStudio
